import Mathlib

/-!
Verification development for the technical-analysis engine of the
Stock-Market repository (`src/utils/technical_indicators.py`).

The engine is embedded shallowly: pandas Series become `List ℚ` (with
`Option ℚ` entries where pandas produces `NaN`), the mutable DataFrame
`self.data` becomes an explicit `Frame` record threaded through the
methods, and floating-point numbers become exact rationals.  The one
representational exception is the Bollinger standard deviation, which is
irrational in general: it is represented by its square (the rolling
sample variance), and every comparison against the bands is expressed by
the exactly equivalent squared comparison (`c ≥ m + 2·√v  ↔  c ≥ m ∧
(c − m)² ≥ 4·v`, valid since `v ≥ 0`).
-/

namespace StockTA

/-- One OHLCV bar of the input series (the rows of the DataFrame handed to
`TechnicalIndicators.__init__`).  Dates are abstracted to integers, since
only their ordering is used. -/
structure Bar where
  date : Int
  open_price : ℚ
  high : ℚ
  low : ℚ
  close : ℚ
  volume : ℚ
deriving DecidableEq, Repr

def dummyBar : Bar := ⟨0, 0, 0, 0, 0, 0⟩

def closesOf (bars : List Bar) : List ℚ := bars.map (fun b => b.close)

def opensOf (bars : List Bar) : List ℚ := bars.map (fun b => b.open_price)

def highsOf (bars : List Bar) : List ℚ := bars.map (fun b => b.high)

def lowsOf (bars : List Bar) : List ℚ := bars.map (fun b => b.low)

def volumesOf (bars : List Bar) : List ℚ := bars.map (fun b => b.volume)

/-- `np.mean` / pandas `.mean()` of a list of rationals. -/
def mean (xs : List ℚ) : ℚ := xs.sum / (xs.length : ℚ)

/-- The window of the trailing `w` values ending at index `i` (inclusive). -/
def windowAt (w : ℕ) (xs : List ℚ) (i : ℕ) : List ℚ := (xs.take (i + 1)).drop (i + 1 - w)

/-- pandas `Series.rolling(window=w).mean()`: `none` (NaN) until the window
is full. -/
def rollMean (w : ℕ) (xs : List ℚ) : List (Option ℚ) :=
  (List.range xs.length).map (fun i => if w ≤ i + 1 then some (mean (windowAt w xs i)) else none)

/-- pandas `Series.rolling(window=w).std()` squared: the rolling sample
variance (ddof = 1).  The standard deviation itself is `√` of this. -/
def rollVar (w : ℕ) (xs : List ℚ) : List (Option ℚ) :=
  (List.range xs.length).map (fun i =>
    if w ≤ i + 1 then
      some (((windowAt w xs i).map (fun x => (x - mean (windowAt w xs i)) ^ 2)).sum / ((w : ℚ) - 1))
    else none)

/-- `Series.diff()`: `none` (NaN) at index 0, `x_i − x_{i−1}` afterwards. -/
def diffsOf (xs : List ℚ) : List (Option ℚ) :=
  match xs with
  | [] => []
  | _ :: t => none :: List.zipWith (fun a b => some (a - b)) t xs

/-- `delta.where(delta > 0, 0)`: the NaN at index 0 fails the `> 0` test and
is replaced by 0, like every non-positive delta. -/
def gainsOf (xs : List ℚ) : List ℚ :=
  (diffsOf xs).map (fun d => match d with | some v => if v > 0 then v else 0 | none => 0)

/-- `-delta.where(delta < 0, 0)`. -/
def lossesOf (xs : List ℚ) : List ℚ :=
  (diffsOf xs).map (fun d => match d with | some v => if v < 0 then -v else 0 | none => 0)

/-- `rs = gain/loss; rsi = 100 − 100/(1+rs)` with IEEE conventions made
explicit: `loss = 0, gain > 0` gives `rs = +∞` hence RSI exactly 100;
`loss = 0, gain = 0` gives `rs = NaN` hence RSI NaN (`none`). -/
def rsiFromGL : Option ℚ → Option ℚ → Option ℚ
  | some g, some l =>
      if l = 0 then (if g = 0 then none else some 100)
      else some (100 - 100 / (1 + g / l))
  | _, _ => none

/-- The per-bar RSI column of `calculate_rsi(period)`. -/
def rsiSeries (period : ℕ) (closes : List ℚ) : List (Option ℚ) :=
  List.zipWith rsiFromGL (rollMean period (gainsOf closes)) (rollMean period (lossesOf closes))

/-- The `RSI_Signal` column: initialised to `'Neutral'`, overwritten with
`'Overbought'` where RSI > 70 and `'Oversold'` where RSI < 30 (a NaN RSI
fails both comparisons and stays `'Neutral'`). -/
def rsiSignalOf : Option ℚ → String
  | some v => if v > 70 then "Overbought" else if v < 30 then "Oversold" else "Neutral"
  | none => "Neutral"

def rsiSignalCol (period : ℕ) (closes : List ℚ) : List String :=
  (rsiSeries period closes).map rsiSignalOf

/-- `Series.ewm(span, adjust=False).mean()` after the first element:
`y_i = (1 − a)·y_{i−1} + a·x_i`. -/
def emaFrom (a prev : ℚ) : List ℚ → List ℚ
  | [] => []
  | x :: xs =>
      let y := (1 - a) * prev + a * x
      y :: emaFrom a y xs

/-- `Series.ewm(span, adjust=False).mean()`: seeded with the first value. -/
def emaCalc (a : ℚ) : List ℚ → List ℚ
  | [] => []
  | x :: xs => x :: emaFrom a x xs

def emaSpan (span : ℕ) (xs : List ℚ) : List ℚ := emaCalc (2 / ((span : ℚ) + 1)) xs

/-- `macd_line = ema_fast − ema_slow` (fast = 12, slow = 26). -/
def macdLineList (closes : List ℚ) : List ℚ :=
  List.zipWith (fun a b => a - b) (emaSpan 12 closes) (emaSpan 26 closes)

/-- `signal_line = macd_line.ewm(span=9, adjust=False).mean()`. -/
def signalLineList (closes : List ℚ) : List ℚ := emaSpan 9 (macdLineList closes)

/-- `histogram = macd_line − signal_line`. -/
def histogramList (closes : List ℚ) : List ℚ :=
  List.zipWith (fun a b => a - b) (macdLineList closes) (signalLineList closes)

/-- The `MACD_Cross` column: `'Hold'` everywhere except where the MACD line
crosses the signal line between bar `i−1` and bar `i`. -/
def crossList (m s : List ℚ) : List String :=
  match m, s with
  | [], _ => []
  | _, [] => []
  | _ :: _, _ :: _ =>
      let ps := m.zip s
      "Hold" :: List.zipWith
        (fun prev cur : ℚ × ℚ =>
          if cur.1 > cur.2 ∧ prev.1 ≤ prev.2 then "Buy"
          else if cur.1 < cur.2 ∧ prev.1 ≥ prev.2 then "Sell"
          else "Hold")
        ps ps.tail

/-- The `BB_Signal` column of `calculate_bollinger_bands(period=20,
std_dev=2)`.  pandas first marks `'Overbought'` where `Close ≥ upper`, then
marks `'Oversold'` where `Close ≤ lower` (the later write wins where both
hold); NaN bands keep `'Neutral'`.  `c ≥ m + 2√v` and `c ≤ m − 2√v` are
expressed by their squared equivalents. -/
def bbSignalAt (c : ℚ) : Option ℚ → Option ℚ → String
  | some m, some v =>
      if m ≥ c ∧ (m - c) ^ 2 ≥ 4 * v then "Oversold"
      else if c ≥ m ∧ (c - m) ^ 2 ≥ 4 * v then "Overbought"
      else "Neutral"
  | _, _ => "Neutral"

def bbSignalCol (closes : List ℚ) : List String :=
  List.zipWith (fun c mv => bbSignalAt c mv.1 mv.2) closes ((rollMean 20 closes).zip (rollVar 20 closes))

/-- `scipy.signal.argrelextrema(xs, cmp, order)` with the default
`mode='clip'`: index `i` is kept when `cmp xs[i] xs[j]` holds for every
clipped neighbour `j = i ± shift`, `1 ≤ shift ≤ order`. -/
def relExtrema (cmp : ℚ → ℚ → Bool) (xs : List ℚ) (order : ℕ) : List ℕ :=
  (List.range xs.length).filter (fun i =>
    ((List.range order).map (fun k => k + 1)).all (fun sh =>
      cmp (xs.getD i 0) (xs.getD (min (i + sh) (xs.length - 1)) 0) &&
      cmp (xs.getD i 0) (xs.getD (i - sh) 0)))

/-- Python's `abs(level - mean)/mean < tolerance` with IEEE division made
explicit: a zero cluster mean gives `inf`/`NaN`, which fails the `<`. -/
def withinTol (level m : ℚ) : Bool :=
  if m = 0 then false else decide (|level - m| / m < 1 / 50)

/-- The greedy loop body of `cluster_levels`: `cur` is the (nonempty)
current cluster; a level within tolerance of the running mean joins it,
otherwise the cluster closes (contributing its mean) and a new one starts. -/
def clusterGo : List ℚ → List ℚ → List ℚ
  | cur, [] => [mean cur]
  | cur, l :: ls =>
      if withinTol l (mean cur) then clusterGo (cur ++ [l]) ls
      else mean cur :: clusterGo [l] ls

/-- `cluster_levels(levels, tolerance=0.02)`: sort ascending, then greedily
cluster, replacing each cluster by its mean. -/
def cluster_levels (levels : List ℚ) : List ℚ :=
  match List.insertionSort (fun a b : ℚ => a ≤ b) levels with
  | [] => []
  | x :: xs => clusterGo [x] xs

/-- The last `n` elements of a list (Python `l[-n:]`, and the building block
of `iloc` slices from the end). -/
def lastN (n : ℕ) (l : List α) : List α := l.drop (l.length - n)

/-! ## Result records (the dictionary returned by `calculate_all_indicators`) -/

/-- `{action, confidence, reason}` of `_generate_recommendation`. -/
structure Recommendation where
  action : String
  confidence : ℕ
  reason : String
deriving DecidableEq, Repr

/-- The `'rsi'` sub-dictionary.  `value` is a plain rational because the code
replaces a NaN latest RSI by the number 0 (`float(...) if not pd.isna(...)
else 0`). -/
structure RSIResult where
  value : ℚ
  signal : String
  interpretation : String
deriving DecidableEq, Repr

/-- The `'macd'` sub-dictionary. -/
structure MACDResult where
  macd_line : ℚ
  signal_line : ℚ
  histogram : ℚ
  signal : String
  interpretation : String
deriving DecidableEq, Repr

/-- The value of `_interpret_bb`.  The third constructor stands for the
f-string `"Price at {pct:.0f}% of band range"`; it carries the data the
percentage is computed from (`pct = (price − lower)/(upper − lower)·100`,
irrational in general, NaN when the bands are NaN). -/
inductive BBInterp where
  | atUpper
  | atLower
  | pctOfRange (price : ℚ) (middle : Option ℚ) (variance : Option ℚ)
deriving DecidableEq, Repr

/-- The `'bollinger_bands'` sub-dictionary.  `upper`, `lower` and `width`
are determined by `middle` and `variance` as `middle ± 2√variance` and
`4√variance`; `width_sq` is the exact square of the `BB_Width` column. -/
structure BBResult where
  middle : Option ℚ
  variance : Option ℚ
  width_sq : Option ℚ
  signal : String
  interpretation : BBInterp
deriving DecidableEq, Repr

/-- The dictionary returned by `find_support_resistance`. -/
structure SupportResistance where
  support_levels : List ℚ
  resistance_levels : List ℚ
  nearest_support : Option ℚ
  nearest_resistance : Option ℚ
  current_price : ℚ
deriving DecidableEq, Repr

/-- The dictionary returned by `analyze_volume`. -/
structure VolumeAnalysis where
  current_volume : ℚ
  avg_volume : Option ℚ
  volume_trend : String
  obv : ℚ
  recent_spikes : ℕ
deriving DecidableEq, Repr

/-- One entry of the list returned by `detect_candlestick_patterns`. -/
structure PatternEvent where
  date : Int
  pattern : String
  ptype : String
  description : String
deriving DecidableEq, Repr

/-- The `results` dictionary as it stands when `_generate_recommendation`
is called on it (everything except `'recommendation'`). -/
structure CoreResults where
  current_price : ℚ
  trend : String
  rsi : RSIResult
  macd : MACDResult
  bollinger_bands : BBResult
  support_resistance : SupportResistance
  volume : VolumeAnalysis
  patterns : List PatternEvent
  sma_20 : Option ℚ
  sma_50 : Option ℚ
deriving DecidableEq, Repr

/-- The full dictionary returned by `calculate_all_indicators`. -/
structure AnalysisResults extends CoreResults where
  recommendation : Recommendation
deriving DecidableEq, Repr

/-! ## Support/resistance, volume, patterns, trend -/

/-- `find_support_resistance(order=5)` as a pure function of the bars. -/
def find_support_resistance_pure (bars : List Bar) : SupportResistance :=
  let lows := lowsOf bars
  let highs := highsOf bars
  let support_raw := (relExtrema (fun a b => decide (a ≤ b)) lows 5).map (fun i => lows.getD i 0)
  let resistance_raw := (relExtrema (fun a b => decide (b ≤ a)) highs 5).map (fun i => highs.getD i 0)
  let support_levels := cluster_levels support_raw
  let resistance_levels := cluster_levels resistance_raw
  let current_price := (closesOf bars).getLastD 0
  let support_below := support_levels.filter (fun s => decide (s < current_price))
  let resistance_above := resistance_levels.filter (fun r => decide (current_price < r))
  { support_levels := lastN 5 support_levels
    resistance_levels := lastN 5 resistance_levels
    nearest_support := support_below.max?
    nearest_resistance := resistance_above.min?
    current_price := current_price }

/-- The On-Balance-Volume accumulation after the first bar. -/
def obvFrom (prevClose acc : ℚ) : List (ℚ × ℚ) → List ℚ
  | [] => []
  | (c, v) :: rest =>
      let acc' := if c > prevClose then acc + v else if c < prevClose then acc - v else acc
      acc' :: obvFrom c acc' rest

/-- The `OBV` column: starts at 0, adds volume on up-closes, subtracts on
down-closes. -/
def obvList (closes volumes : List ℚ) : List ℚ :=
  match closes.zip volumes with
  | [] => []
  | (c, _) :: rest => 0 :: obvFrom c 0 rest

/-- The `Volume_Spike` column: `Volume > 2 * Volume_MA` (false while the
rolling mean is NaN). -/
def volumeSpikeCol (volumes : List ℚ) : List Bool :=
  List.zipWith (fun v ma => match ma with | some m => decide (v > 2 * m) | none => false)
    volumes (rollMean 20 volumes)

/-- `analyze_volume` as a pure function of the bars.  The `[-40:-20]` slice
is empty for series of at most 20 bars, making the older mean NaN, and a
NaN comparison is false, so the trend defaults to `'Decreasing'`. -/
def analyze_volume_pure (bars : List Bar) : VolumeAnalysis :=
  let volumes := volumesOf bars
  let closes := closesOf bars
  let n := volumes.length
  let recent := lastN 20 volumes
  let older := (volumes.take (n - 20)).drop (n - 40)
  let volume_trend :=
    if recent.isEmpty then "Decreasing"
    else if older.isEmpty then "Decreasing"
    else if mean recent > mean older then "Increasing" else "Decreasing"
  { current_volume := volumes.getLastD 0
    avg_volume := (rollMean 20 volumes).getLastD none
    volume_trend := volume_trend
    obv := (obvList closes volumes).getLastD 0
    recent_spikes := (lastN 10 (volumeSpikeCol volumes)).count true }

/-- The pattern checks of one loop iteration of
`detect_candlestick_patterns` (bar `i`, needing bar `i−1`; the loop runs
from `i = 2`).  Each check appends independently. -/
def patternsAt (bars : List Bar) (i : ℕ) : List PatternEvent :=
  let b := bars.getD i dummyBar
  let p := bars.getD (i - 1) dummyBar
  let open_price := b.open_price
  let close := b.close
  let high := b.high
  let low := b.low
  let prev_open := p.open_price
  let prev_close := p.close
  let body := |close - open_price|
  let total_range := high - low
  let upper_shadow := high - max open_price close
  let lower_shadow := min open_price close - low
  (if total_range > 0 ∧ body / total_range < 1 / 10 then
    [⟨b.date, "Doji", "Neutral", "Indecision in the market"⟩] else [])
  ++ (if body > 0 ∧ lower_shadow > 2 * body ∧ upper_shadow < body ∧ close > open_price then
    [⟨b.date, "Hammer", "Bullish", "Potential bullish reversal"⟩] else [])
  ++ (if body > 0 ∧ upper_shadow > 2 * body ∧ lower_shadow < body ∧ close < open_price then
    [⟨b.date, "Shooting Star", "Bearish", "Potential bearish reversal"⟩] else [])
  ++ (if close > open_price ∧ prev_close < prev_open ∧ close > prev_open ∧ open_price < prev_close then
    [⟨b.date, "Bullish Engulfing", "Bullish", "Strong bullish reversal signal"⟩] else [])
  ++ (if close < open_price ∧ prev_close > prev_open ∧ close < prev_open ∧ open_price > prev_close then
    [⟨b.date, "Bearish Engulfing", "Bearish", "Strong bearish reversal signal"⟩] else [])

/-- `detect_candlestick_patterns`: all events for bars `2 … n−1` in order,
truncated to the last 10. -/
def detectPatterns (bars : List Bar) : List PatternEvent :=
  lastN 10 ((((List.range bars.length).drop 2).map (patternsAt bars)).flatten)

/-- `current_price > sma_20` with a possibly-NaN right side (false on NaN). -/
def gtOpt (a : ℚ) : Option ℚ → Bool
  | some b => decide (a > b)
  | none => false

def ltOpt (a : ℚ) : Option ℚ → Bool
  | some b => decide (a < b)
  | none => false

/-- `sma_20 > sma_50` where either side may be NaN. -/
def gtOpt2 : Option ℚ → Option ℚ → Bool
  | some a, some b => decide (a > b)
  | _, _ => false

def ltOpt2 : Option ℚ → Option ℚ → Bool
  | some a, some b => decide (a < b)
  | _, _ => false

/-- The chained-comparison trend classification of
`calculate_all_indicators` (lines 320–329). -/
def trendLabel (current_price : ℚ) (sma20 sma50 : Option ℚ) : String :=
  if gtOpt current_price sma20 && gtOpt2 sma20 sma50 then "Strong Uptrend"
  else if gtOpt current_price sma20 then "Uptrend"
  else if ltOpt current_price sma20 && ltOpt2 sma20 sma50 then "Strong Downtrend"
  else if ltOpt current_price sma20 then "Downtrend"
  else "Sideways"

/-! ## Interpretation helpers -/

/-- `_interpret_rsi` (a NaN argument, i.e. `none`, is the `pd.isna` case). -/
def interpret_rsi : Option ℚ → String
  | none => "Insufficient data"
  | some v =>
      if v > 70 then "Overbought - Consider selling"
      else if v < 30 then "Oversold - Consider buying"
      else if v > 50 then "Bullish momentum"
      else "Bearish momentum"

/-- `_interpret_macd`. -/
def interpret_macd (histogram : ℚ) : String :=
  if histogram > 0 then "Bullish momentum - MACD above signal"
  else if histogram < 0 then "Bearish momentum - MACD below signal"
  else "Neutral"

/-- `_interpret_bb(price, upper, lower)`: the `price >= upper` test first,
then `price <= lower`, else the percentage-of-band-range text (NaN bands
fail both comparisons and fall through). -/
def interpret_bb (price : ℚ) : Option ℚ → Option ℚ → BBInterp
  | some m, some v =>
      if price ≥ m ∧ (price - m) ^ 2 ≥ 4 * v then .atUpper
      else if m ≥ price ∧ (m - price) ^ 2 ≥ 4 * v then .atLower
      else .pctOfRange price (some m) (some v)
  | m, v => .pctOfRange price m v

/-! ## Substring containment (Python's `in` on strings) -/

/-- Whether `p` is a prefix of `s`, on character lists. -/
def prefCL : List Char → List Char → Bool
  | [], _ => true
  | _ :: _, [] => false
  | a :: ps, b :: ss => a == b && prefCL ps ss

/-- Whether `pat` occurs as a contiguous substring of `s` (character
lists); Python's `pat in s`. -/
def substrCL (s pat : List Char) : Bool :=
  match s with
  | [] => pat.isEmpty
  | _ :: rest => prefCL pat s || substrCL rest pat

/-- Python's `pat in s` on strings. -/
def strContains (s pat : String) : Bool := substrCL s.toList pat.toList

/-! ## The recommendation engine -/

/-- The buy/sell counter accumulation of `_generate_recommendation`,
if/elif chains faithfully threaded as pairs `(buy_signals, sell_signals)`. -/
def codeCounts (results : CoreResults) : ℕ × ℕ :=
  let p1 : ℕ × ℕ :=
    if results.rsi.signal = "Oversold" then (0 + 2, 0)
    else if results.rsi.signal = "Overbought" then (0, 0 + 2)
    else (0, 0)
  let p2 : ℕ × ℕ :=
    if results.macd.signal = "Buy" then (p1.1 + 2, p1.2)
    else if results.macd.signal = "Sell" then (p1.1, p1.2 + 2)
    else p1
  let p3 : ℕ × ℕ :=
    if results.bollinger_bands.signal = "Oversold" then (p2.1 + 1, p2.2)
    else if results.bollinger_bands.signal = "Overbought" then (p2.1, p2.2 + 1)
    else p2
  let p4 : ℕ × ℕ :=
    if strContains results.trend "Uptrend" then (p3.1 + 1, p3.2)
    else if strContains results.trend "Downtrend" then (p3.1, p3.2 + 1)
    else p3
  if results.volume.volume_trend = "Increasing" ∧ p4.1 > p4.2 then (p4.1 + 1, p4.2) else p4

/-- The final first-match mapping of `_generate_recommendation`, from the
accumulated counters. -/
def recFromCounts (buy_signals sell_signals : ℕ) : Recommendation :=
  if buy_signals > sell_signals + 2 then
    ⟨"Strong Buy", min 95 (buy_signals * 15),
      "Multiple bullish signals detected (" ++ toString buy_signals ++ " buy vs "
        ++ toString sell_signals ++ " sell signals)"⟩
  else if buy_signals > sell_signals then
    ⟨"Buy", min 80 (buy_signals * 12),
      "Bullish indicators outweigh bearish (" ++ toString buy_signals ++ " buy vs "
        ++ toString sell_signals ++ " sell signals)"⟩
  else if sell_signals > buy_signals + 2 then
    ⟨"Strong Sell", min 95 (sell_signals * 15),
      "Multiple bearish signals detected (" ++ toString sell_signals ++ " sell vs "
        ++ toString buy_signals ++ " buy signals)"⟩
  else if sell_signals > buy_signals then
    ⟨"Sell", min 80 (sell_signals * 12),
      "Bearish indicators outweigh bullish (" ++ toString sell_signals ++ " sell vs "
        ++ toString buy_signals ++ " buy signals)"⟩
  else ⟨"Hold", 50, "Mixed signals - Wait for clearer trend"⟩

/-- `_generate_recommendation(results)`. -/
def generate_recommendation (results : CoreResults) : Recommendation :=
  recFromCounts (codeCounts results).1 (codeCounts results).2

/-! ### The spec's reference definition of the recommendation

These definitions follow the words of the specification (section 4.6) and
of claim C1, to be compared with `generate_recommendation` above: the
buy/sell counters are independent sums of the listed increments, the
volume bonus is +1 to buy iff the volume trend is "Increasing" and buy
already strictly leads, and the action/confidence comes from the ordered
first-match rules. -/

def specBuyBase (results : CoreResults) : ℕ :=
  (if results.rsi.signal = "Oversold" then 2 else 0)
  + (if results.macd.signal = "Buy" then 2 else 0)
  + (if results.bollinger_bands.signal = "Oversold" then 1 else 0)
  + (if strContains results.trend "Uptrend" then 1 else 0)

def specSellCount (results : CoreResults) : ℕ :=
  (if results.rsi.signal = "Overbought" then 2 else 0)
  + (if results.macd.signal = "Sell" then 2 else 0)
  + (if results.bollinger_bands.signal = "Overbought" then 1 else 0)
  + (if strContains results.trend "Downtrend" then 1 else 0)

def specBuyCount (results : CoreResults) : ℕ :=
  specBuyBase results
  + (if results.volume.volume_trend = "Increasing" ∧ specBuyBase results > specSellCount results
     then 1 else 0)

/-- The spec's ordered first-match action/confidence mapping (the reason
text is left free by the spec, which only requires both raw counts in it). -/
def specMap (b s : ℕ) : String × ℕ :=
  if b > s + 2 then ("Strong Buy", min 95 (b * 15))
  else if b > s then ("Buy", min 80 (b * 12))
  else if s > b + 2 then ("Strong Sell", min 95 (s * 15))
  else if s > b then ("Sell", min 80 (s * 12))
  else ("Hold", 50)

def specRec (results : CoreResults) : String × ℕ :=
  specMap (specBuyCount results) (specSellCount results)

/-! ## The DataFrame state (`self.data`) and the stateful methods

`TechnicalIndicators` mutates `self.data` in place, adding derived
columns; this is modelled by an explicit `Frame` record threaded through
the methods.  Writing a column conses it onto the column list (a later
write of the same name shadows the earlier one, like an in-place
overwrite); reading scans for the first match. -/

inductive ColData where
  | nums (vals : List (Option ℚ))
  | strs (vals : List String)
  | bools (vals : List Bool)
deriving DecidableEq, Repr

structure Frame where
  bars : List Bar
  cols : List (String × ColData)
deriving DecidableEq, Repr

def Frame.setCol (F : Frame) (name : String) (c : ColData) : Frame :=
  { F with cols := (name, c) :: F.cols }

def Frame.getCol (F : Frame) (name : String) : Option ColData :=
  (F.cols.find? (fun p => p.1 == name)).map (fun p => p.2)

/-- `self.data[name].iloc[-1]` for a label column (the default is never hit
in the real control flow, where the column has just been written). -/
def Frame.getStrColLast (F : Frame) (name dflt : String) : String :=
  match F.getCol name with
  | some (.strs vs) => vs.getLastD dflt
  | _ => dflt

/-- `self.data[name].iloc[-1]` for a numeric column. -/
def Frame.getNumColLast (F : Frame) (name : String) : Option ℚ :=
  match F.getCol name with
  | some (.nums vs) => vs.getLastD none
  | _ => none

/-- `TechnicalIndicators.__init__`: copy the data, sort by date, reset the
index.  (`pd.to_datetime` is the identity on our abstract dates.) -/
def tiInit (data : List Bar) : Frame :=
  ⟨List.insertionSort (fun a b : Bar => a.date ≤ b.date) data, []⟩

/-- `calculate_rsi(period=14)`: writes the `RSI` and `RSI_Signal` columns,
returns the RSI series. -/
def calculate_rsi (F : Frame) : Frame × List (Option ℚ) :=
  let closes := closesOf F.bars
  let rsi := rsiSeries 14 closes
  (((F.setCol "RSI" (.nums rsi)).setCol "RSI_Signal" (.strs (rsiSignalCol 14 closes))), rsi)

/-- `calculate_macd(fast=12, slow=26, signal=9)`: writes `MACD`,
`MACD_Signal`, `MACD_Histogram` and `MACD_Cross`, returns the three
series. -/
def calculate_macd (F : Frame) : Frame × (List ℚ × List ℚ × List ℚ) :=
  let closes := closesOf F.bars
  let m := macdLineList closes
  let s := signalLineList closes
  let h := histogramList closes
  (((((F.setCol "MACD" (.nums (m.map some))).setCol "MACD_Signal" (.nums (s.map some))).setCol
      "MACD_Histogram" (.nums (h.map some))).setCol "MACD_Cross" (.strs (crossList m s))),
   (m, s, h))

/-- `calculate_bollinger_bands(period=20, std_dev=2)`: writes the band
columns (middle, the squared standard deviation in place of the irrational
`std`, the squared width in place of `BB_Width`, and the signal), returns
the middle band and the rolling variance. -/
def calculate_bollinger_bands (F : Frame) : Frame × (List (Option ℚ) × List (Option ℚ)) :=
  let closes := closesOf F.bars
  let sma := rollMean 20 closes
  let v := rollVar 20 closes
  (((((F.setCol "BB_Middle" (.nums sma)).setCol "BB_Var" (.nums v)).setCol
      "BB_WidthSq" (.nums (v.map (fun o => o.map (fun x => 16 * x))))).setCol
      "BB_Signal" (.strs (bbSignalCol closes))),
   (sma, v))

/-- `find_support_resistance(order=5)`: `none` models the `IndexError`
raised by `iloc[-1]` on an empty frame. -/
def find_support_resistance (F : Frame) : Option SupportResistance :=
  if F.bars.isEmpty then none else some (find_support_resistance_pure F.bars)

/-- `analyze_volume()`: writes `Volume_MA`, `Volume_Spike` and `OBV`;
`none` models the `IndexError` of `iloc[-1]` on an empty frame. -/
def analyze_volume (F : Frame) : Frame × Option VolumeAnalysis :=
  let volumes := volumesOf F.bars
  let closes := closesOf F.bars
  let F' := ((F.setCol "Volume_MA" (.nums (rollMean 20 volumes))).setCol
      "Volume_Spike" (.bools (volumeSpikeCol volumes))).setCol
      "OBV" (.nums ((obvList closes volumes).map some))
  (F', if F.bars.isEmpty then none else some (analyze_volume_pure F.bars))

/-- `detect_candlestick_patterns()` (reads the frame, writes nothing). -/
def detect_candlestick_patterns (F : Frame) : List PatternEvent :=
  detectPatterns F.bars

/-- Assembling the `results` dictionary (lines 312–365), given the latest
values the code reads back from the frame columns. -/
def compileResults (bars : List Bar) (rsiSig macdSig bbSig : String) (bbWidthSq : Option ℚ)
    (sr : SupportResistance) (va : VolumeAnalysis) (pats : List PatternEvent) : AnalysisResults :=
  let closes := closesOf bars
  let sma20 := (rollMean 20 closes).getLastD none
  let sma50 := (rollMean 50 closes).getLastD none
  let current_price := closes.getLastD 0
  let latestRSI := (rsiSeries 14 closes).getLastD none
  let m := (macdLineList closes).getLastD 0
  let s := (signalLineList closes).getLastD 0
  let h := (histogramList closes).getLastD 0
  let bbM := (rollMean 20 closes).getLastD none
  let bbV := (rollVar 20 closes).getLastD none
  let core : CoreResults :=
    { current_price := current_price
      trend := trendLabel current_price sma20 sma50
      rsi :=
        { value := match latestRSI with | some v => v | none => 0
          signal := rsiSig
          interpretation := interpret_rsi latestRSI }
      macd :=
        { macd_line := m, signal_line := s, histogram := h
          signal := macdSig
          interpretation := interpret_macd h }
      bollinger_bands :=
        { middle := bbM, variance := bbV, width_sq := bbWidthSq
          signal := bbSig
          interpretation := interpret_bb current_price bbM bbV }
      support_resistance := sr
      volume := va
      patterns := pats
      sma_20 := sma20
      sma_50 := sma50 }
  { core with recommendation := generate_recommendation core }

/-- The full analysis as a pure function of the (already sorted) bars. -/
def mkAnalysis (bars : List Bar) : AnalysisResults :=
  let closes := closesOf bars
  compileResults bars
    ((rsiSignalCol 14 closes).getLastD "Neutral")
    ((crossList (macdLineList closes) (signalLineList closes)).getLastD "Hold")
    ((bbSignalCol closes).getLastD "Neutral")
    (((rollVar 20 closes).map (fun o => o.map (fun x => 16 * x))).getLastD none)
    (find_support_resistance_pure bars)
    (analyze_volume_pure bars)
    (detectPatterns bars)

/-- `calculate_all_indicators()`: runs every indicator (mutating the
frame), then compiles the results dictionary, reading `RSI_Signal`,
`MACD_Cross`, `BB_Signal` and the band width back from the frame.  `none`
models the crash on an empty frame. -/
def calculate_all_indicators (F : Frame) : Frame × Option AnalysisResults :=
  let r1 := calculate_rsi F
  let r2 := calculate_macd r1.1
  let r3 := calculate_bollinger_bands r2.1
  let sr := find_support_resistance r3.1
  let r4 := analyze_volume r3.1
  let pats := detect_candlestick_patterns r4.1
  match sr, r4.2 with
  | some srr, some vaa =>
      (r4.1, some (compileResults r4.1.bars
        (r4.1.getStrColLast "RSI_Signal" "Neutral")
        (r4.1.getStrColLast "MACD_Cross" "Hold")
        (r4.1.getStrColLast "BB_Signal" "Neutral")
        (r4.1.getNumColLast "BB_WidthSq")
        srr vaa pats))
  | _, _ => (r4.1, none)

/-! # Theorems -/

/-! ## C9: the RSI interpretation brackets -/

/-- C9 (counterexample).  The claim states that RSI in the 50–70 bracket
yields "Bullish momentum", in particular "at RSI exactly 50 the
interpretation is 'Bullish momentum'", and that everything below 50 yields
"Bearish momentum".  The code disagrees at both edges: `_interpret_rsi`
tests `rsi_value > 50` strictly, so RSI exactly 50 falls to the `else`
branch "Bearish momentum"; and below 30 it returns the oversold text, not
"Bearish momentum". -/
theorem C9_counterexample :
    interpret_rsi (some 50) = "Bearish momentum" ∧
    interpret_rsi (some 50) ≠ "Bullish momentum" ∧
    interpret_rsi (some 20) = "Oversold - Consider buying" ∧
    interpret_rsi (some 20) ≠ "Bearish momentum" := by
  refine ⟨?_, ?_, ?_, ?_⟩ <;> with_unfolding_all decide

/-- C9 (amended).  The RSI interpretation is: above 70 "Overbought -
Consider selling"; in (50, 70] "Bullish momentum"; in [30, 50] "Bearish
momentum" (so exactly 50 is "Bearish momentum", not "Bullish momentum");
below 30 "Oversold - Consider buying". -/
theorem C9_interpret_rsi_brackets (v : ℚ) :
    (70 < v → interpret_rsi (some v) = "Overbought - Consider selling") ∧
    (50 < v ∧ v ≤ 70 → interpret_rsi (some v) = "Bullish momentum") ∧
    (30 ≤ v ∧ v ≤ 50 → interpret_rsi (some v) = "Bearish momentum") ∧
    (v < 30 → interpret_rsi (some v) = "Oversold - Consider buying") := by
  refine ⟨fun h => ?_, fun h => ?_, fun h => ?_, fun h => ?_⟩ <;>
    simp only [interpret_rsi]
  · rw [if_pos h]
  · rw [if_neg (by linarith), if_neg (by linarith), if_pos h.1]
  · rw [if_neg (by linarith), if_neg (by linarith), if_neg (by linarith)]
  · rw [if_neg (by linarith), if_pos h]

/-- C9 (witness for the amended theorem): concrete values in each bracket. -/
theorem C9_witness :
    interpret_rsi (some 60) = "Bullish momentum" ∧
    interpret_rsi (some 40) = "Bearish momentum" :=
  ⟨(C9_interpret_rsi_brackets 60).2.1 (by norm_num),
   (C9_interpret_rsi_brackets 40).2.2.1 (by norm_num)⟩

/-! ## C6: confidence bounds and the action alphabet -/

/-- The final mapping keeps the confidence within bounds and the action in
the five-label alphabet, whatever the counters are. -/
theorem recFromCounts_bounds (b s : ℕ) :
    (recFromCounts b s).confidence ≤ 100 ∧
    (recFromCounts b s).action ∈ ["Strong Buy", "Buy", "Hold", "Sell", "Strong Sell"] := by
  unfold recFromCounts
  split_ifs <;> refine ⟨?_, by simp⟩ <;> dsimp only [] <;> omega

/-- C6.  For every analyzed series the recommendation's confidence is an
integer in [0, 100] (it is a natural number, so only the upper bound is
substantive) and its action is one of the five enumerated labels. -/
theorem C6_confidence_action (bars : List Bar) :
    0 ≤ (mkAnalysis bars).recommendation.confidence ∧
    (mkAnalysis bars).recommendation.confidence ≤ 100 ∧
    (mkAnalysis bars).recommendation.action
      ∈ ["Strong Buy", "Buy", "Hold", "Sell", "Strong Sell"] := by
  exact ⟨Nat.zero_le _, (recFromCounts_bounds _ _).1, (recFromCounts_bounds _ _).2⟩

/-! ## C7: the two engulfing patterns are mutually exclusive per bar -/

/-- A "Bullish Engulfing" event at bar `i` forces `close > open` there. -/
theorem bullish_engulfing_close_gt (bars : List Bar) (i : ℕ)
    (h : "Bullish Engulfing" ∈ (patternsAt bars i).map (fun e => e.pattern)) :
    (bars.getD i dummyBar).close > (bars.getD i dummyBar).open_price := by
  simp only [patternsAt, List.map_append, List.mem_append] at h
  rcases h with ((((h | h) | h) | h) | h) <;> split_ifs at h with hc <;> simp_all

/-- A "Bearish Engulfing" event at bar `i` forces `close < open` there. -/
theorem bearish_engulfing_close_lt (bars : List Bar) (i : ℕ)
    (h : "Bearish Engulfing" ∈ (patternsAt bars i).map (fun e => e.pattern)) :
    (bars.getD i dummyBar).close < (bars.getD i dummyBar).open_price := by
  simp only [patternsAt, List.map_append, List.mem_append] at h
  rcases h with ((((h | h) | h) | h) | h) <;> split_ifs at h with hc <;> simp_all

/-- C7.  The pattern detector never emits both a "Bullish Engulfing" and a
"Bearish Engulfing" event for the same bar: the two checks require
`close > open` and `close < open` respectively. -/
theorem C7_engulfing_exclusive (bars : List Bar) (i : ℕ)
    (h : "Bullish Engulfing" ∈ (patternsAt bars i).map (fun e => e.pattern)) :
    "Bearish Engulfing" ∉ (patternsAt bars i).map (fun e => e.pattern) := by
  intro hb
  exact absurd (bullish_engulfing_close_gt bars i h)
    (not_lt_of_lt (bearish_engulfing_close_lt bars i hb))

/-- C7 (witness): the spec's own engulfing scenario — bar 1 has open 90,
close 80 (bearish), bar 2 has open 78, close 95 and engulfs it — produces
a "Bullish Engulfing" at bar 2, and the theorem rules a simultaneous
"Bearish Engulfing" out. -/
def c7bars : List Bar :=
  [⟨0, 100, 101, 99, 100, 10⟩, ⟨1, 90, 91, 79, 80, 10⟩, ⟨2, 78, 96, 77, 95, 10⟩]

theorem C7_witness :
    "Bearish Engulfing" ∉ (patternsAt c7bars 2).map (fun e => e.pattern) :=
  C7_engulfing_exclusive c7bars 2 (by with_unfolding_all decide)

/-! ## C10: a NaN latest RSI is reported as the number 0 -/

/-- C10.  Whenever the latest bar's RSI is undefined (NaN), the compiled
result reports `rsi.value` as the number 0 — not a NaN sentinel — while
the interpretation string is "Insufficient data". -/
theorem C10_nan_rsi_reported_as_zero (bars : List Bar)
    (h : (rsiSeries 14 (closesOf bars)).getLastD none = none) :
    (mkAnalysis bars).rsi.value = 0 ∧
    (mkAnalysis bars).rsi.interpretation = "Insufficient data" := by
  unfold mkAnalysis compileResults
  simp only [h]
  exact ⟨trivial, rfl⟩

/-- C10 (witness): a three-bar series is shorter than `period + 1` bars, so
its latest RSI is NaN and the result fields follow the theorem. -/
def c10bars : List Bar := [⟨0, 10, 11, 9, 10, 100⟩, ⟨1, 10, 12, 9, 11, 100⟩, ⟨2, 11, 13, 10, 12, 100⟩]

theorem C10_witness :
    (mkAnalysis c10bars).rsi.value = 0 ∧
    (mkAnalysis c10bars).rsi.interpretation = "Insufficient data" :=
  C10_nan_rsi_reported_as_zero c10bars (by with_unfolding_all decide)

/-! ## Frame bookkeeping: column writes never touch the bars, and the
latest-value reads recover the freshly written columns -/

theorem setCol_bars (F : Frame) (n : String) (c : ColData) : (F.setCol n c).bars = F.bars := rfl

theorem getCol_setCol_self (F : Frame) (n : String) (c : ColData) :
    (F.setCol n c).getCol n = some c := by
  simp [Frame.setCol, Frame.getCol, List.find?]

theorem getCol_setCol_ne (F : Frame) (n m : String) (c : ColData) (h : (m == n) = false) :
    (F.setCol m c).getCol n = F.getCol n := by
  simp [Frame.setCol, Frame.getCol, List.find?, h]

/-- The frame after all five indicator passes. -/
def framesAfter (F : Frame) : Frame :=
  (analyze_volume (calculate_bollinger_bands (calculate_macd (calculate_rsi F).1).1).1).1

theorem framesAfter_bars (F : Frame) : (framesAfter F).bars = F.bars := rfl

theorem calcAll_fst (F : Frame) : (calculate_all_indicators F).1 = framesAfter F := by
  unfold calculate_all_indicators framesAfter
  rcases h : find_support_resistance (calculate_bollinger_bands (calculate_macd (calculate_rsi F).1).1).1 with _ | sr <;>
    rcases h2 : (analyze_volume (calculate_bollinger_bands (calculate_macd (calculate_rsi F).1).1).1).2 with _ | va <;>
      simp [h, h2]

theorem framesAfter_reads (F : Frame) :
    (framesAfter F).getStrColLast "RSI_Signal" "Neutral"
        = (rsiSignalCol 14 (closesOf F.bars)).getLastD "Neutral" ∧
    (framesAfter F).getStrColLast "MACD_Cross" "Hold"
        = (crossList (macdLineList (closesOf F.bars)) (signalLineList (closesOf F.bars))).getLastD "Hold" ∧
    (framesAfter F).getStrColLast "BB_Signal" "Neutral"
        = (bbSignalCol (closesOf F.bars)).getLastD "Neutral" ∧
    (framesAfter F).getNumColLast "BB_WidthSq"
        = (((rollVar 20 (closesOf F.bars)).map (fun o => o.map (fun x => 16 * x)))).getLastD none := by
  unfold framesAfter analyze_volume calculate_bollinger_bands calculate_macd calculate_rsi
  refine ⟨?_, ?_, ?_, ?_⟩ <;>
    simp +decide only [Frame.getStrColLast, Frame.getNumColLast, setCol_bars,
      getCol_setCol_ne, getCol_setCol_self]

/-- `calculate_all_indicators` factors through a pure function of the bars:
the result is `none` exactly on the empty frame, else `mkAnalysis` of the
bars, independently of any columns already present. -/
theorem calcAll_snd (F : Frame) :
    (calculate_all_indicators F).2
      = if F.bars.isEmpty then none else some (mkAnalysis F.bars) := by
  obtain ⟨h1, h2, h3, h4⟩ := framesAfter_reads F
  unfold calculate_all_indicators
  unfold framesAfter at h1 h2 h3 h4
  by_cases hF : F.bars.isEmpty
  · simp [find_support_resistance, analyze_volume, setCol_bars, hF,
      calculate_rsi, calculate_macd, calculate_bollinger_bands]
  · simp only [find_support_resistance, analyze_volume, setCol_bars,
      calculate_rsi, calculate_macd, calculate_bollinger_bands, hF] at h1 h2 h3 h4 ⊢
    simp only [Bool.false_eq_true, if_false, if_neg]
    simp [mkAnalysis, detect_candlestick_patterns, setCol_bars, h1, h2, h3, h4]

/-! ## C2: the engine performs no input validation -/

/-- A three-bar series with a negative low price, otherwise well formed. -/
def c2negBars : List Bar :=
  [⟨0, 10, 12, -5, 11, 100⟩, ⟨1, 11, 13, 9, 12, 100⟩, ⟨2, 12, 14, 10, 13, 100⟩]

/-- Ten well-formed bars — far below the claimed 60-bar minimum. -/
def c2shortBars : List Bar :=
  (List.range 10).map (fun i => ⟨(i : Int), 10 + i, 12 + i, 9 + i, 11 + i, 100⟩)

set_option maxRecDepth 80000 in
/-- C2 (counterexample).  The claim says a series containing a negative
price fails fast with a typed `MalformedSeries` error, and a well-formed
series shorter than the 60-bar floor fails with `InsufficientData` rather
than returning a result.  In fact `calculate_all_indicators` returns a
result in both cases: on `c2negBars` (negative low) and on `c2shortBars`
(10 bars). -/
theorem C2_counterexample :
    ((calculate_all_indicators (tiInit c2negBars)).2).isSome = true ∧
    ((calculate_all_indicators (tiInit c2shortBars)).2).isSome = true := by
  refine ⟨?_, ?_⟩ <;> with_unfolding_all decide

/-- C2 (amended).  The engine performs no input validation at all: for
every input series, including unsorted ones (silently sorted by the
constructor), series with negative prices or volumes, and series of any
nonzero length, the analysis returns a result; only the empty series
produces no result (an untyped `IndexError` from `iloc[-1]`, modelled as
`none`, not a typed `MalformedSeries`/`InsufficientData` value). -/
theorem C2_no_validation (data : List Bar) :
    ((calculate_all_indicators (tiInit data)).2).isSome = !data.isEmpty := by
  have hlen : (tiInit data).bars.length = data.length :=
    (List.perm_insertionSort _ _).length_eq
  have hE : (tiInit data).bars.isEmpty = data.isEmpty := by
    rcases h1 : (tiInit data).bars with _ | _ <;> rcases h2 : data with _ | _ <;>
      simp_all
  rw [calcAll_snd, hE]
  by_cases h : data.isEmpty <;> simp [h]

/-! ## C8: determinism / purity of the full analysis -/

/-- C8.  Running the full analysis twice over the same constructed engine
state yields the identical results value: the first run's column writes do
not change the bars, and the compiled results are a pure function of the
bars.  (Together with `calcAll_snd`, this is the round-trip property: the
same `BarSeries` always maps to the same `AnalysisResults`.) -/
theorem C8_deterministic (data : List Bar) :
    (calculate_all_indicators (calculate_all_indicators (tiInit data)).1).2
      = (calculate_all_indicators (tiInit data)).2 := by
  rw [calcAll_snd, calcAll_snd, calcAll_fst, framesAfter_bars]

/-! ## C4: RSI range -/

theorem get?_zipWith {α β γ : Type} {f : α → β → γ} :
    ∀ (as : List α) (bs : List β) (i : ℕ) (c : γ),
      (List.zipWith f as bs).get? i = some c →
      ∃ a b, as.get? i = some a ∧ bs.get? i = some b ∧ c = f a b := by
  intro as
  induction as with
  | nil => simp [List.zipWith]
  | cons a as ih =>
      intro bs i c h
      cases bs with
      | nil => simp [List.zipWith] at h
      | cons b bs =>
          cases i with
          | zero =>
              refine ⟨a, b, rfl, rfl, ?_⟩
              simpa [List.zipWith] using h.symm
          | succ n => simpa using ih bs n c (by simpa [List.zipWith] using h)

theorem rollMean_get? (w : ℕ) (ys : List ℚ) (i : ℕ) (o : Option ℚ)
    (h : (rollMean w ys).get? i = some o) :
    o = if w ≤ i + 1 then some (mean (windowAt w ys i)) else none := by
  unfold rollMean at h
  have hlen : i < ys.length := by
    by_contra hc
    rw [List.get?_eq_none.mpr (by simpa using Nat.le_of_not_lt hc)] at h
    exact absurd h (by simp)
  rw [List.get?_map, List.get?_range hlen] at h
  have h' : some (if w ≤ i + 1 then some (mean (windowAt w ys i)) else none) = some o := by
    simpa using h
  exact (Option.some.inj h').symm

theorem mem_windowAt {w i : ℕ} {ys : List ℚ} {x : ℚ} (h : x ∈ windowAt w ys i) : x ∈ ys :=
  List.take_subset _ _ (List.drop_subset _ _ h)

theorem gainsOf_nonneg {closes : List ℚ} {x : ℚ} (h : x ∈ gainsOf closes) : 0 ≤ x := by
  unfold gainsOf at h
  obtain ⟨d, _, hd⟩ := List.mem_map.mp h
  rw [← hd]
  rcases d with _ | v
  · exact le_rfl
  · show 0 ≤ if v > 0 then v else 0
    split_ifs with hv
    · exact hv.le
    · exact le_rfl

theorem lossesOf_nonneg {closes : List ℚ} {x : ℚ} (h : x ∈ lossesOf closes) : 0 ≤ x := by
  unfold lossesOf at h
  obtain ⟨d, _, hd⟩ := List.mem_map.mp h
  rw [← hd]
  rcases d with _ | v
  · exact le_rfl
  · show 0 ≤ if v < 0 then -v else 0
    split_ifs with hv
    · linarith
    · exact le_rfl

theorem mean_nonneg {ys : List ℚ} (h : ∀ x ∈ ys, 0 ≤ x) : 0 ≤ mean ys := by
  unfold mean
  exact div_nonneg (List.sum_nonneg h) (by positivity)

/-- C4 (amended).  Every defined RSI value lies in [0, 100]; in particular
a window with zero rolling loss but positive rolling gain saturates RSI to
exactly 100.  (The claim's parenthetical — that RSI is undefined *only*
within the first `period` bars — fails: a window with zero gain and zero
loss gives RS = 0/0 = NaN at arbitrarily late bars, see the
counterexample.) -/
theorem C4_rsi_bounds (bars : List Bar) (i : ℕ) (v : ℚ)
    (h : (rsiSeries 14 (closesOf bars)).get? i = some (some v)) :
    0 ≤ v ∧ v ≤ 100 := by
  unfold rsiSeries at h
  obtain ⟨g?, l?, hg?, hl?, hc⟩ := get?_zipWith _ _ _ _ h
  cases g? with
  | none => simp [rsiFromGL] at hc
  | some g =>
  cases l? with
  | none => simp [rsiFromGL] at hc
  | some l =>
  have hgval := rollMean_get? _ _ _ _ hg?
  have hlval := rollMean_get? _ _ _ _ hl?
  by_cases hw : 14 ≤ i + 1
  swap
  · rw [if_neg hw] at hgval; exact absurd hgval (by simp)
  rw [if_pos hw] at hgval hlval
  have hg0 : 0 ≤ g := by
    rw [Option.some.inj hgval]
    exact mean_nonneg (fun x hx => gainsOf_nonneg (mem_windowAt hx))
  have hl0 : 0 ≤ l := by
    rw [Option.some.inj hlval]
    exact mean_nonneg (fun x hx => lossesOf_nonneg (mem_windowAt hx))
  simp only [rsiFromGL] at hc
  by_cases hlz : l = 0
  · rw [if_pos hlz] at hc
    by_cases hgz : g = 0
    · rw [if_pos hgz] at hc; exact absurd hc (by simp)
    · rw [if_neg hgz] at hc
      have : v = 100 := Option.some.inj hc
      constructor <;> rw [this] <;> norm_num
  · rw [if_neg hlz] at hc
    have hv : v = 100 - 100 / (1 + g / l) := Option.some.inj hc
    have hl0' : 0 < l := lt_of_le_of_ne hl0 (Ne.symm hlz)
    have hrs : 0 ≤ g / l := div_nonneg hg0 hl0'.le
    have h1 : (1 : ℚ) ≤ 1 + g / l := by linarith
    have h2 : 100 / (1 + g / l) ≤ 100 := div_le_self (by norm_num) h1
    have h3 : 0 < 100 / (1 + g / l) := by positivity
    constructor <;> rw [hv] <;> linarith

/-- A 16-bar series with a constant close price. -/
def c4flatBars : List Bar := (List.range 16).map (fun i => ⟨(i : Int), 100, 101, 99, 100, 50⟩)

set_option maxRecDepth 80000 in
/-- C4 (counterexample).  The claim restricts undefined RSI to "bars
within the first `period` bars" (indices 0–13 for period 14).  On a flat
close series both the rolling gain and the rolling loss are 0, so RS =
0/0 = NaN and RSI is undefined at bar 14 (the 15th bar) as well. -/
theorem C4_counterexample :
    (rsiSeries 14 (closesOf c4flatBars)).get? 14 = some none ∧ ¬(14 < 14) := by
  refine ⟨?_, by omega⟩
  with_unfolding_all decide

/-- A 15-bar strictly increasing close series. -/
def c4incBars : List Bar := (List.range 15).map (fun i => ⟨(i : Int), 1 + i, 2 + i, i, 1 + i, 50⟩)

set_option maxRecDepth 80000 in
/-- C4 (witness for the amended theorem): on a strictly rising series the
RSI at bar 13 is defined — rolling loss 0, rolling gain positive — and
saturates to exactly 100, inside [0, 100]. -/
theorem C4_witness :
    (rsiSeries 14 (closesOf c4incBars)).get? 13 = some (some 100) ∧
      (0 ≤ (100 : ℚ) ∧ (100 : ℚ) ≤ 100) :=
  ⟨by with_unfolding_all decide,
   C4_rsi_bounds c4incBars 13 100 (by with_unfolding_all decide)⟩

/-! ## C3: MACD on strictly increasing closes -/

/-- For a faster smoothing factor `af` and a slower one `as'`
(`0 < as' < af ≤ 1`), running both EMA recurrences from states below the
previous close along a strictly increasing tail keeps the fast EMA
strictly above the slow EMA at every step. -/
theorem emaFrom_sub_pos (af as' : ℚ) (haf : af ≤ 1) (has : 0 < as') (hlt : as' < af) :
    ∀ (cs : List ℚ) (cprev f s : ℚ), s ≤ cprev → f ≤ cprev → s ≤ f →
      List.Chain (fun a b : ℚ => a < b) cprev cs →
      ∀ d ∈ List.zipWith (fun a b => a - b) (emaFrom af f cs) (emaFrom as' s cs), 0 < d := by
  intro cs
  induction cs with
  | nil => intro cprev f s _ _ _ _ d hd; simp [emaFrom] at hd
  | cons c cs ih =>
      intro cprev f s hs hf hsf hch d hd
      rw [List.chain_cons] at hch
      obtain ⟨hcc, hch'⟩ := hch
      rw [show emaFrom af f (c :: cs)
            = ((1 - af) * f + af * c) :: emaFrom af ((1 - af) * f + af * c) cs from rfl,
          show emaFrom as' s (c :: cs)
            = ((1 - as') * s + as' * c) :: emaFrom as' ((1 - as') * s + as' * c) cs from rfl,
          List.zipWith_cons_cons] at hd
      have hA : 0 ≤ (1 - af) * (f - s) := mul_nonneg (by linarith) (by linarith)
      have hB : 0 < (af - as') * (c - s) := mul_pos (by linarith) (by linarith)
      have hkey : 0 < ((1 - af) * f + af * c) - ((1 - as') * s + as' * c) := by nlinarith
      rcases List.mem_cons.mp hd with rfl | hd'
      · exact hkey
      · refine ih c _ _ ?_ ?_ (by linarith) hch' d hd'
        · nlinarith [mul_nonneg (show (0:ℚ) ≤ 1 - as' by linarith)
            (show (0:ℚ) ≤ c - s by linarith)]
        · nlinarith [mul_nonneg (show (0:ℚ) ≤ 1 - af by linarith)
            (show (0:ℚ) ≤ c - f by linarith)]

theorem macdLineList_cons (c : ℚ) (cs : List ℚ) :
    macdLineList (c :: cs)
      = (c - c) :: List.zipWith (fun a b => a - b)
          (emaFrom (2 / (((12:ℕ):ℚ) + 1)) c cs) (emaFrom (2 / (((26:ℕ):ℚ) + 1)) c cs) := rfl

/-- C3 (amended).  For a strictly monotonically increasing close series the
MACD line (fast EMA minus slow EMA) is strictly positive at every bar after
the first — the "fast EMA above slow EMA" part of the claim.  The
histogram/cross part of the claim is false, see the counterexample: the
9-period signal EMA can overtake a falling-but-positive MACD line, so
`MACD_Cross` can report "Sell" on a strictly increasing series. -/
theorem C3_macd_line_pos (closes : List ℚ)
    (h : List.Pairwise (fun a b : ℚ => a < b) closes) (i : ℕ) (d : ℚ)
    (hd : (macdLineList closes).get? (i + 1) = some d) : 0 < d := by
  cases closes with
  | nil => simp [macdLineList, emaSpan, emaCalc] at hd
  | cons c cs =>
      have hch : List.Chain (fun a b : ℚ => a < b) c cs := List.chain_iff_pairwise.mpr h
      rw [macdLineList_cons, List.get?_cons_succ] at hd
      exact emaFrom_sub_pos _ _ (by norm_num) (by norm_num) (by norm_num) cs c c c
        le_rfl le_rfl le_rfl hch d (List.get?_mem hd)

/-- A strictly increasing close series: a large jump, then a slow ramp. -/
def c3closes : List ℚ := 1 :: (List.range 15).map (fun i => 1000 + i)

set_option maxRecDepth 80000 in
/-- C3 (counterexample).  `c3closes` is strictly monotonically increasing,
yet the per-bar `MACD_Cross` label at bar 15 is "Sell": after the jump the
MACD line decays toward the ramp equilibrium and the lagging signal line
crosses above it. -/
theorem C3_counterexample :
    List.Pairwise (fun a b : ℚ => a < b) c3closes ∧
    (crossList (macdLineList c3closes) (signalLineList c3closes)).get? 15 = some "Sell" := by
  constructor <;> with_unfolding_all decide

def c3wCloses : List ℚ := [1, 2, 3]

/-- C3 (witness for the amended theorem): on the strictly increasing series
`[1, 2, 3]`, the MACD line at bar 1 is `15/13 − 29/27 = 28/351 > 0`. -/
theorem C3_witness :
    (macdLineList c3wCloses).get? 1 = some (28 / 351) ∧ (0 : ℚ) < 28 / 351 :=
  ⟨by with_unfolding_all decide,
   C3_macd_line_pos c3wCloses (by with_unfolding_all decide) 0 _
     (by with_unfolding_all decide)⟩

/-! ## C5: idempotence of the level clustering -/

theorem mean_singleton (x : ℚ) : mean [x] = x := by simp [mean]

theorem mean_le_of_forall_le {xs : List ℚ} {a : ℚ} (hne : xs ≠ []) (h : ∀ x ∈ xs, x ≤ a) :
    mean xs ≤ a := by
  unfold mean
  have hlen : 0 < (xs.length : ℚ) := by
    exact_mod_cast List.length_pos.mpr hne
  rw [div_le_iff hlen]
  calc xs.sum ≤ xs.length • a := List.sum_le_card_nsmul xs a h
  _ = a * xs.length := by rw [nsmul_eq_mul]; ring

/-- Appending a level at least the running mean cannot decrease the mean. -/
theorem mean_le_mean_append {xs : List ℚ} {l : ℚ} (hne : xs ≠ []) (h : mean xs ≤ l) :
    mean xs ≤ mean (xs ++ [l]) := by
  unfold mean at *
  have hlen : 0 < (xs.length : ℚ) := by
    exact_mod_cast List.length_pos.mpr hne
  have hsum : xs.sum ≤ l * xs.length := by
    rw [div_le_iff hlen] at h; exact h
  rw [List.sum_append, List.length_append]
  simp only [List.sum_cons, List.sum_nil, add_zero, List.length_singleton]
  push_cast
  rw [div_le_div_iff hlen (by linarith)]
  nlinarith

/-- After a cluster closes (a level exceeds tolerance from the final mean),
every later, larger candidate also exceeds tolerance from that mean. -/
theorem withinTol_false_mono {μ l c : ℚ} (hb : withinTol l μ = false) (hml : μ ≤ l)
    (hlc : l ≤ c) : withinTol c μ = false := by
  unfold withinTol at hb ⊢
  by_cases hz : μ = 0
  · simp [hz]
  · rw [if_neg hz] at hb ⊢
    rw [decide_eq_false_iff_not] at hb
    rw [decide_eq_false_iff_not]
    rcases lt_trichotomy μ 0 with hneg | h0 | hpos
    · exfalso
      apply hb
      have h1 : |l - μ| / μ ≤ 0 := by
        apply div_nonpos_of_nonneg_of_nonpos (abs_nonneg _) hneg.le
      linarith
    · exact absurd h0 hz
    · have h1 : |l - μ| = l - μ := abs_of_nonneg (by linarith)
      have h2 : |c - μ| = c - μ := abs_of_nonneg (by linarith)
      rw [h1] at hb
      rw [h2]
      have h3 : (l - μ) / μ ≤ (c - μ) / μ := by
        apply (div_le_div_right hpos).mpr; linarith
      exact not_lt.mpr (le_trans (not_lt.mp hb) h3)

theorem clusterGo_cons (cur : List ℚ) (l : ℚ) (ls : List ℚ) :
    clusterGo cur (l :: ls)
      = if withinTol l (mean cur) then clusterGo (cur ++ [l]) ls
        else mean cur :: clusterGo [l] ls := rfl

/-- The invariant of the greedy loop: starting from a nonempty current
cluster, on sorted input the emitted cluster means are bounded below by
the running mean, sorted, and pairwise out of tolerance. -/
theorem clusterGo_spec : ∀ (ls cur : List ℚ), cur ≠ [] →
    List.Sorted (fun a b : ℚ => a ≤ b) (cur ++ ls) →
    ∃ c cs, clusterGo cur ls = c :: cs ∧ mean cur ≤ c ∧
      List.Sorted (fun a b : ℚ => a ≤ b) (c :: cs) ∧
      List.Chain' (fun a b : ℚ => withinTol b a = false) (c :: cs) := by
  intro ls
  induction ls with
  | nil =>
      intro cur hne _
      exact ⟨mean cur, [], rfl, le_rfl, List.sorted_singleton _, List.chain'_singleton _⟩
  | cons l ls ih =>
      intro cur hne hsort
      have hcur_le : ∀ x ∈ cur, x ≤ l := fun x hx =>
        ((List.pairwise_append.mp hsort).2.2) x hx l (List.mem_cons_self _ _)
      have hml : mean cur ≤ l := mean_le_of_forall_le hne hcur_le
      by_cases htol : withinTol l (mean cur) = true
      · have heq : clusterGo cur (l :: ls) = clusterGo (cur ++ [l]) ls := by
          rw [clusterGo_cons, if_pos htol]
        have hsort' : List.Sorted (fun a b : ℚ => a ≤ b) ((cur ++ [l]) ++ ls) := by
          rwa [List.append_assoc, List.singleton_append]
        obtain ⟨c, cs, he, hm, hs, hc⟩ := ih (cur ++ [l]) (by simp) hsort'
        exact ⟨c, cs, heq ▸ he, le_trans (mean_le_mean_append hne hml) hm, hs, hc⟩
      · have htol' : withinTol l (mean cur) = false := by
          simpa using htol
        have heq : clusterGo cur (l :: ls) = mean cur :: clusterGo [l] ls := by
          rw [clusterGo_cons, if_neg (by simp [htol'])]
        have hsort2 : List.Sorted (fun a b : ℚ => a ≤ b) ([l] ++ ls) := by
          simpa using (List.pairwise_append.mp hsort).2.1
        obtain ⟨c, cs, he, hm, hs, hc⟩ := ih [l] (by simp) hsort2
        have hlc : l ≤ c := by simpa [mean_singleton] using hm
        refine ⟨mean cur, clusterGo [l] ls, heq, le_rfl, ?_, ?_⟩
        · rw [he]
          refine List.sorted_cons.mpr ⟨?_, hs⟩
          intro b hb
          rcases List.mem_cons.mp hb with rfl | hb'
          · exact le_trans hml hlc
          · exact le_trans (le_trans hml hlc) ((List.sorted_cons.mp hs).1 b hb')
        · rw [he]
          exact List.chain'_cons.mpr ⟨withinTol_false_mono htol' hml hlc, hc⟩

/-- The output of `cluster_levels` is sorted with consecutive means out of
tolerance of each other. -/
theorem cluster_levels_sorted_chain (levels : List ℚ) :
    List.Sorted (fun a b : ℚ => a ≤ b) (cluster_levels levels) ∧
    List.Chain' (fun a b : ℚ => withinTol b a = false) (cluster_levels levels) := by
  unfold cluster_levels
  cases hs : List.insertionSort (fun a b : ℚ => a ≤ b) levels with
  | nil => simp
  | cons x xs =>
      have hsorted : List.Sorted (fun a b : ℚ => a ≤ b) (x :: xs) := by
        rw [← hs]; exact List.sorted_insertionSort _ _
      obtain ⟨c, cs, he, _, hs2, hc2⟩ := clusterGo_spec xs [x] (by simp) (by simpa using hsorted)
      dsimp only
      rw [he]; exact ⟨hs2, hc2⟩

/-- On a sorted list whose consecutive elements are pairwise out of
tolerance, the greedy loop closes a singleton cluster at every step. -/
theorem clusterGo_id : ∀ (xs : List ℚ) (x : ℚ),
    List.Chain' (fun a b : ℚ => withinTol b a = false) (x :: xs) →
    clusterGo [x] xs = x :: xs := by
  intro xs
  induction xs with
  | nil => intro x _; simp [clusterGo, mean_singleton]
  | cons y ys ih =>
      intro x hch
      rw [List.chain'_cons] at hch
      obtain ⟨hxy, hch'⟩ := hch
      rw [clusterGo_cons, mean_singleton, if_neg (by simp [hxy]), ih y hch']

theorem cluster_levels_of_sorted_chain {xs : List ℚ}
    (hs : List.Sorted (fun a b : ℚ => a ≤ b) xs)
    (hc : List.Chain' (fun a b : ℚ => withinTol b a = false) xs) :
    cluster_levels xs = xs := by
  unfold cluster_levels
  rw [List.Sorted.insertionSort_eq hs]
  cases xs with
  | nil => rfl
  | cons x xs => exact clusterGo_id xs x hc

/-- C5.  The greedy running-mean clustering with relative tolerance 2% is
idempotent: applied to its own output it returns the same list, because
consecutive output means are always at least the tolerance apart. -/
theorem C5_cluster_idempotent (levels : List ℚ) :
    cluster_levels (cluster_levels levels) = cluster_levels levels := by
  obtain ⟨hs, hc⟩ := cluster_levels_sorted_chain levels
  exact cluster_levels_of_sorted_chain hs hc

/-! ## C1: the recommendation against the spec's reference definition -/

theorem prefCL_refl : ∀ (p rest : List Char), prefCL p (p ++ rest) = true := by
  intro p
  induction p with
  | nil => intro rest; rfl
  | cons a ps ih => intro rest; simp [prefCL, ih]

theorem substrCL_append_middle : ∀ (pre m post : List Char),
    substrCL (pre ++ (m ++ post)) m = true := by
  intro pre
  induction pre with
  | nil =>
      intro m post
      cases m with
      | nil =>
          cases post with
          | nil => rfl
          | cons q qs => simp [substrCL, prefCL]
      | cons c cs =>
          have h := prefCL_refl (c :: cs) post
          simp only [List.cons_append, List.nil_append] at h ⊢
          simp [substrCL, h]
  | cons a pre ih =>
      intro m post
      simp [substrCL, ih m post]

theorem substrCL_self_append (m post : List Char) : substrCL (m ++ post) m = true :=
  substrCL_append_middle [] m post

theorem substrCL_append_left (x t m : List Char) (h : substrCL t m = true) :
    substrCL (x ++ t) m = true := by
  induction x with
  | nil => simpa
  | cons a xs ih => simp [substrCL, ih]

/-- An if/elif pair on a mutually exclusive condition pair equals the two
independent additions of the spec. -/
theorem ifElif_pair (p : ℕ × ℕ) (A B : Prop) [Decidable A] [Decidable B] (k : ℕ)
    (hAB : A → ¬B) :
    (if A then (p.1 + k, p.2) else if B then (p.1, p.2 + k) else p)
      = (p.1 + (if A then k else 0), p.2 + (if B then k else 0)) := by
  by_cases hA : A
  · rw [if_pos hA, if_pos hA, if_neg (hAB hA)]
    simp
  · rw [if_neg hA, if_neg hA]
    by_cases hB : B
    · rw [if_pos hB, if_pos hB]; simp
    · rw [if_neg hB, if_neg hB]; simp

/-- The incremental if/elif counter accumulation of the code equals the
spec's independent sums, provided the trend label cannot contain both
"Uptrend" and "Downtrend" (true of all five produced labels). -/
theorem counts_eq (r : CoreResults)
    (hud : ¬(strContains r.trend "Uptrend" = true ∧ strContains r.trend "Downtrend" = true)) :
    codeCounts r = (specBuyCount r, specSellCount r) := by
  obtain ⟨cp, t, ⟨rv, rs, ri⟩, ⟨ml, sl, hg, ms, mi⟩, ⟨bm, bv, bw, bs, bi⟩, sr,
    ⟨vc, va, vt, vo, vsp⟩, pats, s20, s50⟩ := r
  simp only [codeCounts, specBuyCount, specBuyBase, specSellCount] at hud ⊢
  by_cases h1 : rs = "Oversold" <;> by_cases h2 : rs = "Overbought" <;>
  by_cases h3 : ms = "Buy" <;> by_cases h4 : ms = "Sell" <;>
  by_cases h5 : bs = "Oversold" <;> by_cases h6 : bs = "Overbought" <;>
  by_cases h7 : strContains t "Uptrend" = true <;>
  by_cases h8 : strContains t "Downtrend" = true <;>
  by_cases h9 : vt = "Increasing" <;>
  simp_all

/-- The code's final mapping produces exactly the spec's ordered
first-match action and confidence. -/
theorem recFromCounts_specMap (b s : ℕ) :
    (recFromCounts b s).action = (specMap b s).1 ∧
    (recFromCounts b s).confidence = (specMap b s).2 := by
  unfold recFromCounts specMap
  split_ifs <;> exact ⟨rfl, rfl⟩

theorem recFromCounts_eq_counts_action (b : ℕ) : (recFromCounts b b).action = "Hold" := by
  unfold recFromCounts
  rw [if_neg (by omega), if_neg (by omega), if_neg (by omega), if_neg (by omega)]

/-- Outside the tie (Hold) case, the code's reason string contains the
decimal renderings of both raw counters. -/
theorem recFromCounts_reason_counts (b s : ℕ) (hbs : b ≠ s) :
    substrCL ((recFromCounts b s).reason).toList (toString b).toList = true ∧
    substrCL ((recFromCounts b s).reason).toList (toString s).toList = true := by
  unfold recFromCounts
  split_ifs with hc1 hc2 hc3 hc4
  · refine ⟨?_, ?_⟩ <;>
      simp only [String.toList, String.data_append, List.append_assoc]
    · exact substrCL_append_left _ _ _ (substrCL_self_append _ _)
    · exact substrCL_append_left _ _ _ (substrCL_append_left _ _ _
        (substrCL_append_left _ _ _ (substrCL_self_append _ _)))
  · refine ⟨?_, ?_⟩ <;>
      simp only [String.toList, String.data_append, List.append_assoc]
    · exact substrCL_append_left _ _ _ (substrCL_self_append _ _)
    · exact substrCL_append_left _ _ _ (substrCL_append_left _ _ _
        (substrCL_append_left _ _ _ (substrCL_self_append _ _)))
  · refine ⟨?_, ?_⟩ <;>
      simp only [String.toList, String.data_append, List.append_assoc]
    · exact substrCL_append_left _ _ _ (substrCL_append_left _ _ _
        (substrCL_append_left _ _ _ (substrCL_self_append _ _)))
    · exact substrCL_append_left _ _ _ (substrCL_self_append _ _)
  · refine ⟨?_, ?_⟩ <;>
      simp only [String.toList, String.data_append, List.append_assoc]
    · exact substrCL_append_left _ _ _ (substrCL_append_left _ _ _
        (substrCL_append_left _ _ _ (substrCL_self_append _ _)))
    · exact substrCL_append_left _ _ _ (substrCL_self_append _ _)
  · omega

/-- Every trend label the pipeline can produce contains at most one of
"Uptrend"/"Downtrend" as a substring. -/
theorem trendLabel_not_both (c : ℚ) (s20 s50 : Option ℚ) :
    ¬(strContains (trendLabel c s20 s50) "Uptrend" = true ∧
      strContains (trendLabel c s20 s50) "Downtrend" = true) := by
  unfold trendLabel
  split_ifs <;> decide

/-- C1 (amended).  For every analyzed series the recommendation's action
and confidence are exactly the spec's reference definition (independent
counter sums with the asymmetric volume bonus, then the ordered
first-match mapping); and the reason string contains both raw counts in
every case except "Hold", whose fixed reason text contains neither count
(see the counterexample). -/
theorem C1_recommendation_matches_spec (bars : List Bar) :
    (mkAnalysis bars).recommendation.action = (specRec (mkAnalysis bars).toCoreResults).1 ∧
    (mkAnalysis bars).recommendation.confidence = (specRec (mkAnalysis bars).toCoreResults).2 ∧
    ((mkAnalysis bars).recommendation.action ≠ "Hold" →
      substrCL ((mkAnalysis bars).recommendation.reason).toList
          (toString (specBuyCount (mkAnalysis bars).toCoreResults)).toList = true ∧
      substrCL ((mkAnalysis bars).recommendation.reason).toList
          (toString (specSellCount (mkAnalysis bars).toCoreResults)).toList = true) := by
  set r := (mkAnalysis bars).toCoreResults with hr
  have hud : ¬(strContains r.trend "Uptrend" = true ∧
      strContains r.trend "Downtrend" = true) := trendLabel_not_both _ _ _
  have hrec : (mkAnalysis bars).recommendation = recFromCounts (codeCounts r).1 (codeCounts r).2 :=
    rfl
  have hcounts := counts_eq r hud
  rw [hrec, hcounts]
  refine ⟨(recFromCounts_specMap _ _).1, (recFromCounts_specMap _ _).2, fun hne => ?_⟩
  have hbs : specBuyCount r ≠ specSellCount r := by
    intro hsame
    rw [hsame] at hne
    exact hne (recFromCounts_eq_counts_action _)
  exact recFromCounts_reason_counts _ _ hbs

/-- A five-bar series with constant prices: every signal is neutral, so the
recommendation ties at 0–0 and falls to the "Hold" branch. -/
def c1flatBars : List Bar := (List.range 5).map (fun i => ⟨(i : Int), 100, 101, 99, 100, 50⟩)

set_option maxRecDepth 80000 in
/-- C1 (counterexample).  The claim requires "both raw counts included in
the reason string" for every analyzed series.  On a flat five-bar series
both counters are 0, the action is "Hold", and the reason is the fixed
text "Mixed signals - Wait for clearer trend", which does not contain the
rendering of either counter ("0"). -/
theorem C1_counterexample :
    (mkAnalysis c1flatBars).recommendation.action = "Hold" ∧
    (mkAnalysis c1flatBars).recommendation.reason = "Mixed signals - Wait for clearer trend" ∧
    specBuyCount (mkAnalysis c1flatBars).toCoreResults = 0 ∧
    specSellCount (mkAnalysis c1flatBars).toCoreResults = 0 ∧
    substrCL ((mkAnalysis c1flatBars).recommendation.reason).toList
        (toString (specBuyCount (mkAnalysis c1flatBars).toCoreResults)).toList = false := by
  refine ⟨?_, ?_, ?_, ?_, ?_⟩ <;> with_unfolding_all decide

/-- A 21-bar rising series: the latest close sits above the 20-bar SMA
(trend "Uptrend", +1 buy) while the saturated RSI of 100 reads
"Overbought" (+2 sell), so the action is "Sell" — not "Hold". -/
def c1trendBars : List Bar := (List.range 21).map (fun i => ⟨(i : Int), 1 + i, 2 + i, i, 1 + i, 50⟩)

set_option maxRecDepth 400000 in
/-- C1 (witness for the amended theorem): on `c1trendBars` the action is
not "Hold" and the reason indeed contains both raw counts. -/
theorem C1_witness :
    substrCL ((mkAnalysis c1trendBars).recommendation.reason).toList
        (toString (specBuyCount (mkAnalysis c1trendBars).toCoreResults)).toList = true ∧
    substrCL ((mkAnalysis c1trendBars).recommendation.reason).toList
        (toString (specSellCount (mkAnalysis c1trendBars).toCoreResults)).toList = true :=
  (C1_recommendation_matches_spec c1trendBars).2.2 (by with_unfolding_all decide)

end StockTA
